import Mathlib

/-!
# PocketScholar: the llama.cpp JNI session core (`llama_jni.cpp`)

A shallow embedding of the four JNI entry points of
`android-app/app/src/main/cpp/llama_jni.cpp`:

* `init`      (`Java_..._LlamaEngine_init`)
* `loadModel` (`Java_..._LlamaEngine_loadModel`)
* `prompt`    (`Java_..._LlamaEngine_prompt`)
* `unload`    (`Java_..._LlamaEngine_unload`)

The three file-level globals `g_backend_init`, `g_model`, `g_ctx` become the
fields of `EngineState`, threaded explicitly through every operation.  The
inference engine (llama.cpp / ggml) is external: every value it hands back is
supplied by an `Engine` record, so a theorem quantified over `Engine` holds for
every behaviour of the engine.  Every call made on the engine and every line
written to the Android log is recorded, in program order, in a trace of
`Event`s.

Conventions of the embedding:

* a nullable pointer (`llama_model*`, `llama_context*`) is an `Option` of an
  address, `nullptr` being `none`;
* `int`, `int32_t`, `llama_token` are `Int`; the one arithmetic operation of the
  file that can leave the 32-bit range is the negation on line 94, which the
  language leaves undefined at `INT32_MIN`: it is `negInt32`, with no result
  there, and `prompt` marks that execution `undefined`;
* a `char` sequence (`const char*`, `std::string`, `char buf[128]`) is a
  sequence of `Char`, one per C `char`;
* `GetStringUTFChars` / `ReleaseStringUTFChars` are not traced: an argument
  `jstring` is taken as the C string obtained from it.  `NewStringUTF` reads
  its argument as a NUL-terminated C string (see `NewStringUTF`);
* `llama_batch_get_one` only packs a pointer and a count: a batch is the list
  of tokens it covers, and is recorded with the `llama_decode` call it is
  passed to.
-/

namespace LlamaJNI

/-! ## Data model -/

/-- Address of a loaded `llama_model`. -/
abbrev ModelHandle := Nat

/-- Address of a `llama_context`. -/
abbrev ContextHandle := Nat

/-- A `llama_token` (`int32_t`). -/
abbrev Token := Int

/-- Android log priorities used by `LOGI` / `LOGE`. -/
inductive LogPriority where
  | ANDROID_LOG_DEBUG
  | ANDROID_LOG_INFO
  | ANDROID_LOG_WARN
  | ANDROID_LOG_ERROR
  deriving DecidableEq

/-- The file-level globals of `llama_jni.cpp` (lines 33-36). -/
structure EngineState where
  g_backend_init : Bool
  g_model : Option ModelHandle
  g_ctx : Option ContextHandle
  deriving DecidableEq

/-- The globals as initialised at process start: `false`, `nullptr`, `nullptr`. -/
def EngineState.initial : EngineState :=
  { g_backend_init := false, g_model := none, g_ctx := none }

/-- One observable action: a call on the engine (with the value it returned,
where it returns one) or a line written to the Android log. -/
inductive Event where
  | log (prio : LogPriority) (text : String)
  | llama_log_set
  | ggml_backend_load_all_from_path (path : String)
  | llama_backend_init
  | llama_free (ctx : ContextHandle)
  | llama_model_free (model : ModelHandle)
  | llama_model_default_params
  | llama_model_load_from_file (path : String) (ret : Option ModelHandle)
  | llama_context_default_params
  | llama_init_from_model (model : ModelHandle) (n_ctx n_batch : Nat)
      (ret : Option ContextHandle)
  | llama_model_get_vocab (model : ModelHandle)
  | llama_tokenize (text : String) (n_tokens_max : Int) (ret : Int)
  | llama_sampler_chain_default_params
  | llama_sampler_chain_init
  | llama_sampler_init_greedy
  | llama_sampler_chain_add
  | llama_decode (ctx : ContextHandle) (batch : List Token) (ret : Int)
  | llama_sampler_sample (ctx : ContextHandle) (ret : Token)
  | llama_vocab_is_eog (token : Token) (ret : Bool)
  | llama_token_to_piece (token : Token) (length : Nat) (ret : Int)
  | llama_sampler_free
  deriving DecidableEq

/-- Calls on the inference engine, as opposed to lines of the Android log. -/
def Event.isEngineCall : Event → Bool
  | .log _ _ => false
  | _ => true

/-- What the engine answers in one iteration of the generation loop. -/
structure StepOutcome where
  /-- Return value of `llama_decode`. -/
  decode_ret : Int
  /-- Token returned by `llama_sampler_sample`. -/
  next : Token
  /-- Return value of `llama_vocab_is_eog` on `next`. -/
  is_eog : Bool
  /-- Return value `n` of `llama_token_to_piece`. -/
  piece_n : Int
  /-- Content of `buf` after `llama_token_to_piece`. -/
  piece_buf : List Char

/-- Everything the engine returns during one JNI call. -/
structure Engine where
  /-- Result of `llama_model_load_from_file` (`none` is `nullptr`). -/
  llama_model_load_from_file : String → Option ModelHandle
  /-- Result of `llama_init_from_model` (`none` is `nullptr`). -/
  llama_init_from_model : ModelHandle → Option ContextHandle
  /-- Return value of the sizing `llama_tokenize` call (null buffer, capacity 0). -/
  tokenize_size : String → Int
  /-- Return value of the second `llama_tokenize` call, given the capacity. -/
  tokenize_ret : String → Nat → Int
  /-- Tokens the second `llama_tokenize` call writes to the buffer. -/
  tokenize_out : String → Nat → List Token
  /-- Answers of the engine in loop iteration `i` (counted from 0). -/
  step : Nat → StepOutcome

/-- State after an operation, the value returned to Java, and the trace.
When `undefined` is set the execution ran into an operation for which the C++
language defines no behaviour: `trace` then holds the calls made up to that
operation, and `ret` and `state` say nothing about what a build does from
there on. -/
structure Outcome (α : Type) where
  state : EngineState
  ret : α
  trace : List Event
  undefined : Bool := false

/-! ## Small helpers from the C/JNI semantics -/

/-- Unary minus on a 32-bit `int` (line 94).  The result is the mathematical
negation whenever that fits in 32 bits; for `INT32_MIN` it does not, the
negation is a signed overflow and the language defines no result. -/
def negInt32 (x : Int) : Option Int :=
  if x = -2147483648 then none else some (-x)

/-- The Java string made by `env->NewStringUTF(p)`: the characters of the C
string at `p`, which ends at the first NUL. -/
def NewStringUTF (bytes : List Char) : String :=
  String.mk (bytes.takeWhile (fun c => c != Char.ofNat 0))

/-- `cparams.n_ctx = 2048` (line 72). -/
def n_ctx : Nat := 2048

/-- `cparams.n_batch = 512` (line 73). -/
def n_batch : Nat := 512

/-- `const int n_predict = 256` (line 111). -/
def n_predict : Nat := 256

/-- `const int max_prompt_tokens = 500` (line 115). -/
def max_prompt_tokens : Nat := 500

/-- `sizeof(buf)` for `char buf[128]` (line 128). -/
def buf_size : Nat := 128

/-! ## The four operations -/

/-- `Java_..._LlamaEngine_init` (lines 40-50). -/
def init (st : EngineState) (nativeLibDir : String) : Outcome Unit :=
  if st.g_backend_init then
    { state := st, ret := (), trace := [] }
  else
    { state := { st with g_backend_init := true }
      ret := ()
      trace :=
        [ Event.llama_log_set,
          Event.ggml_backend_load_all_from_path nativeLibDir,
          Event.llama_backend_init,
          Event.log .ANDROID_LOG_INFO "Backend initialized" ] }

/-- Lines 58-59 and 140-141: release the context, then the model, clearing
each global; returns the cleared state and the release calls made. -/
def releasePair (st : EngineState) : EngineState × List Event :=
  let freeCtx : List Event :=
    match st.g_ctx with
    | some c => [Event.llama_free c]
    | none => []
  let freeModel : List Event :=
    match st.g_model with
    | some m => [Event.llama_model_free m]
    | none => []
  ({ st with g_ctx := none, g_model := none }, freeCtx ++ freeModel)

/-- `Java_..._LlamaEngine_loadModel` (lines 52-83). -/
def loadModel (st : EngineState) (modelPath : String) (eng : Engine) : Outcome Bool :=
  if !st.g_backend_init then
    { state := st, ret := false
      trace := [Event.log .ANDROID_LOG_ERROR "Call init() first"] }
  else
    let (st1, released) := releasePair st
    let loaded := eng.llama_model_load_from_file modelPath
    let tr1 := released ++
      [Event.llama_model_default_params,
       Event.llama_model_load_from_file modelPath loaded]
    match loaded with
    | none =>
      { state := { st1 with g_model := none }, ret := false
        trace := tr1 ++ [Event.log .ANDROID_LOG_ERROR "Failed to load model"] }
    | some m =>
      let created := eng.llama_init_from_model m
      let tr2 := tr1 ++
        [Event.llama_context_default_params,
         Event.llama_init_from_model m n_ctx n_batch created]
      match created with
      | none =>
        { state := { st1 with g_model := none, g_ctx := none }, ret := false
          trace := tr2 ++
            [Event.llama_model_free m,
             Event.log .ANDROID_LOG_ERROR "Failed to init context"] }
      | some c =>
        { state := { st1 with g_model := some m, g_ctx := some c }, ret := true
          trace := tr2 ++ [Event.log .ANDROID_LOG_INFO "Model loaded"] }

/-- `Java_..._LlamaEngine_unload` (lines 138-143). -/
def unload (st : EngineState) : Outcome Unit :=
  let (st1, released) := releasePair st
  { state := st1, ret := ()
    trace := released ++ [Event.log .ANDROID_LOG_INFO "Model unloaded"] }

/-- The `for` loop of `prompt` (lines 123-132), entered at loop index `i` with
the current `batch` and the text accumulated so far in `result`.  Returns the
final `result` and the calls made. -/
def promptLoop (eng : Engine) (ctx : ContextHandle) (i : Nat) (batch : List Token)
    (result : List Char) : List Char × List Event :=
  if i < n_predict then
    let o := eng.step i
    if o.decode_ret ≠ 0 then
      (result, [Event.llama_decode ctx batch o.decode_ret])
    else if o.is_eog then
      (result,
        [Event.llama_decode ctx batch o.decode_ret,
         Event.llama_sampler_sample ctx o.next,
         Event.llama_vocab_is_eog o.next o.is_eog])
    else
      let result1 :=
        if o.piece_n > 0 then result ++ o.piece_buf.take o.piece_n.toNat else result
      let rest := promptLoop eng ctx (i + 1) [o.next] result1
      (rest.1,
        [Event.llama_decode ctx batch o.decode_ret,
         Event.llama_sampler_sample ctx o.next,
         Event.llama_vocab_is_eog o.next o.is_eog,
         Event.llama_token_to_piece o.next buf_size o.piece_n] ++ rest.2)
  else
    (result, [])
termination_by n_predict - i

/-- `Java_..._LlamaEngine_prompt` (lines 85-136). -/
def prompt (st : EngineState) (promptJ : String) (eng : Engine) : Outcome String :=
  match st.g_model, st.g_ctx with
  | some model, some ctx =>
    let sized := eng.tokenize_size promptJ
    let tr0 :=
      [Event.llama_model_get_vocab model,
       Event.llama_tokenize promptJ 0 sized]
    match negInt32 sized with
    | none =>
      -- signed overflow in `-llama_tokenize(...)`: nothing is defined from here on
      { state := st, ret := "", trace := tr0, undefined := true }
    | some n_prompt =>
      if n_prompt ≤ 0 then
        { state := st, ret := NewStringUTF "[Empty or invalid prompt]".toList, trace := tr0 }
      else
        let size := n_prompt.toNat
        let filled := eng.tokenize_ret promptJ size
        -- `std::vector<llama_token> tokens(n_prompt)`: zero-filled, then written
        -- from the front by the engine, never beyond its capacity
        let tokens : List Token :=
          ((eng.tokenize_out promptJ size) ++ List.replicate size 0).take size
        let tr1 := tr0 ++ [Event.llama_tokenize promptJ size filled]
        if filled < 0 then
          { state := st, ret := NewStringUTF "[Tokenize failed]".toList, trace := tr1 }
        else
          let tr2 := tr1 ++
            [Event.llama_sampler_chain_default_params,
             Event.llama_sampler_chain_init,
             Event.llama_sampler_init_greedy,
             Event.llama_sampler_chain_add]
          let n_use0 := tokens.length
          let truncated := decide (n_use0 > max_prompt_tokens)
          let logs : List Event :=
            if truncated then
              [Event.log .ANDROID_LOG_ERROR
                ("Prompt too long (" ++ toString n_use0 ++ " tokens), truncating to "
                  ++ toString max_prompt_tokens)]
            else []
          let n_use := if truncated then max_prompt_tokens else n_use0
          let batch := tokens.take n_use
          let gen := promptLoop eng ctx 0 batch []
          { state := st
            ret := NewStringUTF gen.1
            trace := tr2 ++ logs ++ gen.2 ++ [Event.llama_sampler_free] }
  | _, _ =>
    { state := st
      ret := NewStringUTF "[Model not loaded. Call loadModel() first.]".toList
      trace := [] }

/-! ## Sequences of calls -/

/-- One call from the host, with the engine behaviour met during that call. -/
inductive Op where
  | init (nativeLibDir : String)
  | loadModel (modelPath : String) (eng : Engine)
  | prompt (promptJ : String) (eng : Engine)
  | unload

/-- State and trace after one host call. -/
def applyOp (st : EngineState) : Op → EngineState × List Event
  | .init p => ((init st p).state, (init st p).trace)
  | .loadModel p eng => ((loadModel st p eng).state, (loadModel st p eng).trace)
  | .prompt p eng => ((prompt st p eng).state, (prompt st p eng).trace)
  | .unload => ((unload st).state, (unload st).trace)

/-- State and accumulated trace after a sequence of host calls. -/
def run (st : EngineState) : List Op → EngineState × List Event
  | [] => (st, [])
  | op :: ops =>
    let r := applyOp st op
    let rs := run r.1 ops
    (rs.1, r.2 ++ rs.2)

/-! ## Observations on traces -/

/-- The event is a `llama_decode` call. -/
def Event.isDecode : Event → Bool
  | .llama_decode _ _ _ => true
  | _ => false

/-- The event is a `llama_sampler_sample` call. -/
def Event.isSample : Event → Bool
  | .llama_sampler_sample _ _ => true
  | _ => false

/-- The event is a `llama_token_to_piece` call. -/
def Event.isDetokenize : Event → Bool
  | .llama_token_to_piece _ _ _ => true
  | _ => false

/-- The event creates, configures or frees a sampler. -/
def Event.isSampler : Event → Bool
  | .llama_sampler_chain_default_params => true
  | .llama_sampler_chain_init => true
  | .llama_sampler_init_greedy => true
  | .llama_sampler_chain_add => true
  | .llama_sampler_free => true
  | _ => false

/-- The batch of the first `llama_decode` call of a trace, if there is one. -/
def firstDecodeBatch : List Event → Option (List Token)
  | [] => none
  | .llama_decode _ batch _ :: _ => some batch
  | _ :: es => firstDecodeBatch es

/-! ## The resource ledger -/

/-- Handles the engine has handed out and not yet been asked to release. -/
structure Ledger where
  models : List ModelHandle
  contexts : List ContextHandle
  deriving DecidableEq

/-- No live handle. -/
def Ledger.empty : Ledger := { models := [], contexts := [] }

/-- The ledger holding exactly the handles stored in the globals. -/
def Ledger.ofState (st : EngineState) : Ledger :=
  { models := st.g_model.toList, contexts := st.g_ctx.toList }

/-- Effect of one event on the ledger; `none` when a handle that is not live
is released (a double release, or a release of a handle never obtained). -/
def Ledger.apply (l : Ledger) : Event → Option Ledger
  | .llama_model_load_from_file _ (some m) => some { l with models := m :: l.models }
  | .llama_init_from_model _ _ _ (some c) => some { l with contexts := c :: l.contexts }
  | .llama_model_free m =>
    if m ∈ l.models then some { l with models := l.models.erase m } else none
  | .llama_free c =>
    if c ∈ l.contexts then some { l with contexts := l.contexts.erase c } else none
  | _ => some l

/-- The ledger after a whole trace, `none` if some release was invalid. -/
def Ledger.replay (l : Ledger) : List Event → Option Ledger
  | [] => some l
  | e :: es =>
    match l.apply e with
    | some l1 => l1.replay es
    | none => none

/-- At most one live model handle and at most one live context handle. -/
def Ledger.AtMostOnePair (l : Ledger) : Prop :=
  l.models.length ≤ 1 ∧ l.contexts.length ≤ 1

/-- Number of live handles of both kinds. -/
def Ledger.liveCount (l : Ledger) : Nat := l.models.length + l.contexts.length

/-- At every point of the trace (after each of its prefixes) every release so
far was of a live handle and at most one pair is live. -/
def Ledger.SafeAlong (l : Ledger) (tr : List Event) : Prop :=
  ∀ k : Nat, ∃ l1 : Ledger, l.replay (tr.take k) = some l1 ∧ l1.AtMostOnePair

/-- The event acquires or releases a model or context handle. -/
def Event.isHandleCall : Event → Bool
  | .llama_model_load_from_file _ _ => true
  | .llama_init_from_model _ _ _ _ => true
  | .llama_model_free _ => true
  | .llama_free _ => true
  | _ => false

/-! ## The text of a generation, as the loop is meant to build it -/

/-- The loop stops in an iteration with this outcome: `llama_decode` reports an
error, or the sampled token is an end-of-generation token. -/
def StepOutcome.halts (o : StepOutcome) : Bool :=
  decide (o.decode_ret ≠ 0) || o.is_eog

/-- Text fragment of the token sampled in an iteration: the first `n` chars of
`buf` when `llama_token_to_piece` returned `n > 0`, nothing otherwise. -/
def StepOutcome.fragment (o : StepOutcome) : List Char :=
  if o.piece_n > 0 then o.piece_buf.take o.piece_n.toNat else []

/-- Iterations (0-based, from `i` on) that run to their end, i.e. those before
the first halting one. -/
def completedFrom (eng : Engine) (i : Nat) : List Nat :=
  (List.range' i (n_predict - i)).takeWhile (fun j => !(eng.step j).halts)

/-- In-order concatenation of the fragments of the completed iterations. -/
def fragmentsFrom (eng : Engine) (i : Nat) : List Char :=
  ((completedFrom eng i).map (fun j => (eng.step j).fragment)).flatten

/-! ## Concrete engines used to exercise the theorems -/

/-- An engine that loads model `10`, creates context `20`, sizes every prompt at
three tokens `[1, 2, 3]`, and generates "a", then a NUL byte, then "bc",
after which `llama_decode` fails. -/
def sampleEngine : Engine :=
  { llama_model_load_from_file := fun _ => some 10
    llama_init_from_model := fun _ => some 20
    tokenize_size := fun _ => -3
    tokenize_ret := fun _ _ => 3
    tokenize_out := fun _ _ => [1, 2, 3]
    step := fun i =>
      if i = 0 then
        { decode_ret := 0, next := 5, is_eog := false, piece_n := 1, piece_buf := ['a'] }
      else if i = 1 then
        { decode_ret := 0, next := 3, is_eog := false, piece_n := 1,
          piece_buf := [Char.ofNat 0] }
      else if i = 2 then
        { decode_ret := 0, next := 6, is_eog := false, piece_n := 2,
          piece_buf := ['b', 'c'] }
      else
        { decode_ret := 1, next := 0, is_eog := false, piece_n := 0, piece_buf := [] } }

/-- An engine for which every prompt tokenizes to zero tokens. -/
def emptyPromptEngine : Engine :=
  { sampleEngine with tokenize_size := fun _ => 0 }

/-- An engine for which every prompt tokenizes to the 501 tokens `0, 1, ..., 500`. -/
def longPromptEngine : Engine :=
  { sampleEngine with
    tokenize_size := fun _ => -501
    tokenize_ret := fun _ _ => 501
    tokenize_out := fun _ _ => (List.range 501).map Int.ofNat }

/-- A state with the backend initialised and the pair `(10, 20)` held. -/
def loadedState : EngineState :=
  { g_backend_init := true, g_model := some 10, g_ctx := some 20 }

/-! ## Basic facts about the operations -/

theorem negInt32_of_gt (x : Int) (h : -2147483648 < x) : negInt32 x = some (-x) := by
  unfold negInt32
  rw [if_neg (by omega)]

theorem negInt32_neg_nat (n : Nat) (h : n < 2147483648) :
    negInt32 (-(n : Int)) = some (n : Int) := by
  rw [negInt32_of_gt _ (by omega), Int.neg_neg]

theorem init_state_handles (st : EngineState) (p : String) :
    (init st p).state.g_model = st.g_model ∧ (init st p).state.g_ctx = st.g_ctx := by
  unfold init
  split <;> simp

theorem prompt_state (st : EngineState) (p : String) (eng : Engine) :
    (prompt st p eng).state = st := by
  unfold prompt
  split
  · dsimp only
    split
    · rfl
    · split
      · rfl
      · split <;> rfl
  · rfl

theorem unload_state (st : EngineState) :
    (unload st).state = { st with g_model := none, g_ctx := none } := by
  simp [unload, releasePair]

theorem loadModel_state_iff (st : EngineState) (p : String) (eng : Engine) :
    (loadModel st p eng).state.g_ctx.isSome = (loadModel st p eng).state.g_model.isSome ∨
      (loadModel st p eng).state = st := by
  unfold loadModel
  split
  · right; rfl
  · left
    dsimp only [releasePair]
    split
    · rfl
    · split <;> rfl

theorem applyOp_keeps_pairing (st : EngineState) (op : Op)
    (h : st.g_ctx.isSome = st.g_model.isSome) :
    (applyOp st op).1.g_ctx.isSome = (applyOp st op).1.g_model.isSome := by
  cases op with
  | init p =>
    obtain ⟨hm, hc⟩ := init_state_handles st p
    simp only [applyOp, hm, hc, h]
  | loadModel p eng =>
    rcases loadModel_state_iff st p eng with h1 | h1
    · exact h1
    · simp only [applyOp, h1, h]
  | prompt p eng => simp only [applyOp, prompt_state, h]
  | unload => simp [applyOp, unload_state]

theorem run_keeps_pairing (ops : List Op) :
    ∀ st : EngineState, st.g_ctx.isSome = st.g_model.isSome →
      (run st ops).1.g_ctx.isSome = (run st ops).1.g_model.isSome := by
  induction ops with
  | nil => intro st h; exact h
  | cons op ops ih =>
    intro st h
    exact ih _ (applyOp_keeps_pairing st op h)

/-! ## C1: context present iff model present -/

/-- C1: in every state reachable from the initial state by any finite sequence
of `init`, `loadModel`, `prompt` and `unload` calls, whatever the engine
returns in each call, the context is present exactly when the model is; in
particular a context is never held without a model. -/
theorem C1_context_iff_model (ops : List Op) :
    ((run EngineState.initial ops).1.g_ctx.isSome = true ↔
        (run EngineState.initial ops).1.g_model.isSome = true) ∧
      ((run EngineState.initial ops).1.g_ctx ≠ none →
        (run EngineState.initial ops).1.g_model ≠ none) := by
  have h := run_keeps_pairing ops EngineState.initial rfl
  refine ⟨by rw [h], ?_⟩
  intro hc hm
  rw [hm] at h
  cases hctx : (run EngineState.initial ops).1.g_ctx with
  | none => exact hc hctx
  | some c => rw [hctx] at h; simp at h

/-- C1 exercised: after `init` and a successful `loadModel` both handles are held. -/
theorem C1_context_iff_model_witness :
    (run EngineState.initial
        [Op.init "/libs", Op.loadModel "/models/a.gguf" sampleEngine]).1.g_ctx ≠ none ∧
      (run EngineState.initial
        [Op.init "/libs", Op.loadModel "/models/a.gguf" sampleEngine]).1.g_model ≠ none :=
  ⟨by decide,
    (C1_context_iff_model
      [Op.init "/libs", Op.loadModel "/models/a.gguf" sampleEngine]).2 (by decide)⟩

/-! ## C2: result of `loadModel` once the backend is initialised -/

/-- C2: with `g_backend_init = true`, whatever pair is currently held,
`loadModel` returns true exactly when the model load yields a handle `m` and
the context creation for `m` yields a handle `c`, and then the state holds
exactly `m` and `c`; in every other case it returns false and both the model
and the context are absent afterwards. -/
theorem C2_loadModel_result (st : EngineState) (modelPath : String) (eng : Engine)
    (hinit : st.g_backend_init = true) :
    ((loadModel st modelPath eng).ret = true ↔
        ∃ m c, eng.llama_model_load_from_file modelPath = some m ∧
          eng.llama_init_from_model m = some c) ∧
      (∀ m c, eng.llama_model_load_from_file modelPath = some m →
        eng.llama_init_from_model m = some c →
        (loadModel st modelPath eng).ret = true ∧
          (loadModel st modelPath eng).state =
            { g_backend_init := true, g_model := some m, g_ctx := some c }) ∧
      ((¬ ∃ m c, eng.llama_model_load_from_file modelPath = some m ∧
          eng.llama_init_from_model m = some c) →
        (loadModel st modelPath eng).ret = false ∧
          (loadModel st modelPath eng).state =
            { g_backend_init := true, g_model := none, g_ctx := none }) := by
  cases hload : eng.llama_model_load_from_file modelPath with
  | none => simp [loadModel, hinit, hload, releasePair]
  | some m =>
    cases hctx : eng.llama_init_from_model m with
    | none =>
      simp only [loadModel, hinit, hload, hctx, releasePair]
      refine ⟨?_, ?_, ?_⟩
      · constructor
        · intro h
          simp at h
        · rintro ⟨m1, c1, h1, h2⟩
          cases h1
          rw [hctx] at h2
          cases h2
      · intro m1 c1 h1 h2
        cases h1
        rw [hctx] at h2
        cases h2
      · intro _
        simp
    | some c =>
      simp only [loadModel, hinit, hload, hctx, releasePair]
      refine ⟨?_, ?_, ?_⟩
      · constructor
        · intro _
          exact ⟨m, c, rfl, hctx⟩
        · intro _
          rfl
      · intro m1 c1 h1 h2
        cases h1
        rw [hctx] at h2
        cases h2
        simp
      · intro h
        exact absurd ⟨m, c, rfl, hctx⟩ h

/-- C2 exercised: reloading over the held pair `(10, 20)` with an engine whose
context creation fails leaves nothing held. -/
theorem C2_loadModel_result_witness :
    loadedState.g_backend_init = true ∧
      (loadModel loadedState "/models/b.gguf"
          { sampleEngine with llama_init_from_model := fun _ => none }).ret = false ∧
      (loadModel loadedState "/models/b.gguf"
          { sampleEngine with llama_init_from_model := fun _ => none }).state =
        { g_backend_init := true, g_model := none, g_ctx := none } :=
  ⟨rfl,
    (C2_loadModel_result loadedState "/models/b.gguf"
      { sampleEngine with llama_init_from_model := fun _ => none } rfl).2.2
      (by simp [sampleEngine])⟩

/-! ## C3: `loadModel` before `init` -/

/-- C3: with `g_backend_init = false`, `loadModel` returns false, makes no
engine call (its whole trace is one line of the error log), and leaves every
global unchanged; so from the initial state it fails and leaves the state
empty. -/
theorem C3_loadModel_before_init (st : EngineState) (modelPath : String) (eng : Engine)
    (hinit : st.g_backend_init = false) :
    (loadModel st modelPath eng).ret = false ∧
      (loadModel st modelPath eng).trace =
        [Event.log .ANDROID_LOG_ERROR "Call init() first"] ∧
      (∀ e ∈ (loadModel st modelPath eng).trace, e.isEngineCall = false) ∧
      (loadModel st modelPath eng).state = st ∧
      (loadModel EngineState.initial modelPath eng).ret = false ∧
      (loadModel EngineState.initial modelPath eng).state =
        { g_backend_init := false, g_model := none, g_ctx := none } := by
  simp [loadModel, hinit, EngineState.initial, Event.isEngineCall]

/-- C3 exercised on a state that holds a pair although the flag is false:
nothing is released. -/
theorem C3_loadModel_before_init_witness :
    ({ g_backend_init := false, g_model := some 10, g_ctx := some 20 } :
        EngineState).g_backend_init = false ∧
      (loadModel { g_backend_init := false, g_model := some 10, g_ctx := some 20 }
          "/models/a.gguf" sampleEngine).state =
        { g_backend_init := false, g_model := some 10, g_ctx := some 20 } :=
  ⟨rfl,
    (C3_loadModel_before_init
      { g_backend_init := false, g_model := some 10, g_ctx := some 20 }
      "/models/a.gguf" sampleEngine rfl).2.2.2.1⟩

/-! ## C5: `prompt` without a loaded pair -/

/-- C5: when the model or the context is absent, `prompt` returns exactly
"[Model not loaded. Call loadModel() first.]", makes no call at all (so no
tokenize, sampler, decode or detokenize call) and leaves every global
unchanged. -/
theorem C5_prompt_not_loaded (st : EngineState) (promptJ : String) (eng : Engine)
    (h : st.g_model = none ∨ st.g_ctx = none) :
    (prompt st promptJ eng).ret = "[Model not loaded. Call loadModel() first.]" ∧
      (prompt st promptJ eng).trace = [] ∧
      (prompt st promptJ eng).state = st := by
  have hs : NewStringUTF "[Model not loaded. Call loadModel() first.]".toList =
      "[Model not loaded. Call loadModel() first.]" := by decide
  unfold prompt
  split
  · rename_i m c hm hc
    rcases h with h | h
    · rw [h] at hm; cases hm
    · rw [h] at hc; cases hc
  · exact ⟨hs, rfl, rfl⟩

/-- C5 exercised: a model without a context counts as not loaded. -/
theorem C5_prompt_not_loaded_witness :
    ((({ g_backend_init := true, g_model := some 10, g_ctx := none } : EngineState).g_model
          = none) ∨
        (({ g_backend_init := true, g_model := some 10, g_ctx := none } : EngineState).g_ctx
          = none)) ∧
      (prompt { g_backend_init := true, g_model := some 10, g_ctx := none } "2+2="
          sampleEngine).ret = "[Model not loaded. Call loadModel() first.]" :=
  ⟨Or.inr rfl,
    (C5_prompt_not_loaded { g_backend_init := true, g_model := some 10, g_ctx := none }
      "2+2=" sampleEngine (Or.inr rfl)).1⟩

/-! ## C9: empty or invalid prompt -/

/-- C9: in a loaded state, when the sizing pass returns a 32-bit value above
`INT32_MIN` (so that its negation on line 94 is defined) and the token count,
that negation, is zero or negative, `prompt` returns exactly
"[Empty or invalid prompt]"; its trace is the vocabulary lookup and the
sizing `llama_tokenize` call only, so no sampler is created and no decode or
sample call is made; the globals are unchanged; and the execution meets no
undefined operation.  In particular this is so when the sizing pass returns 0. -/
theorem C9_prompt_empty (st : EngineState) (promptJ : String) (eng : Engine)
    (model : ModelHandle) (ctx : ContextHandle)
    (hm : st.g_model = some model) (hc : st.g_ctx = some ctx)
    (hmin : -2147483648 < eng.tokenize_size promptJ)
    (hn : -(eng.tokenize_size promptJ) ≤ 0) :
    (prompt st promptJ eng).ret = "[Empty or invalid prompt]" ∧
      (prompt st promptJ eng).trace =
        [Event.llama_model_get_vocab model,
         Event.llama_tokenize promptJ 0 (eng.tokenize_size promptJ)] ∧
      (∀ e ∈ (prompt st promptJ eng).trace,
        e.isSampler = false ∧ e.isDecode = false ∧ e.isSample = false) ∧
      (prompt st promptJ eng).state = st ∧
      (prompt st promptJ eng).undefined = false := by
  have hs : NewStringUTF "[Empty or invalid prompt]".toList =
      "[Empty or invalid prompt]" := by decide
  have hneg := negInt32_of_gt (eng.tokenize_size promptJ) hmin
  simp only [prompt, hm, hc, hneg, hn, if_true]
  refine ⟨?_, ?_, ?_, ?_, ?_⟩
  · exact hs
  · trivial
  · simp [Event.isSampler, Event.isDecode, Event.isSample]
  · trivial
  · trivial

/-- C9 exercised: a prompt that tokenizes to zero tokens. -/
theorem C9_prompt_empty_witness :
    loadedState.g_model = some 10 ∧ loadedState.g_ctx = some 20 ∧
      -2147483648 < emptyPromptEngine.tokenize_size "" ∧
      -(emptyPromptEngine.tokenize_size "") ≤ 0 ∧
      (prompt loadedState "" emptyPromptEngine).ret = "[Empty or invalid prompt]" :=
  ⟨rfl, rfl, by decide, by decide,
    (C9_prompt_empty loadedState "" emptyPromptEngine 10 20 rfl rfl
      (by decide) (by decide)).1⟩

/-! ## C10: `init` is idempotent -/

theorem applyOp_keeps_backend_init (st : EngineState) (op : Op)
    (h : st.g_backend_init = true) : (applyOp st op).1.g_backend_init = true := by
  cases op with
  | init p => simp [applyOp, init, h]
  | loadModel p eng =>
    cases hl : eng.llama_model_load_from_file p with
    | none => simp [applyOp, loadModel, h, releasePair, hl]
    | some m =>
      cases hc : eng.llama_init_from_model m <;>
        simp [applyOp, loadModel, h, releasePair, hl, hc]
  | prompt p eng => simp only [applyOp, prompt_state, h]
  | unload => simp [applyOp, unload_state, h]

/-- C10: with `g_backend_init = true`, `init` makes no call and writes no log
line (its trace is empty) and leaves the globals unchanged; from any state,
`init` twice gives the same final state and the same trace as `init` once; and
no operation resets `g_backend_init` once it is true. -/
theorem C10_init_idempotent (st : EngineState) (p : String) :
    (st.g_backend_init = true →
        (init st p).trace = [] ∧ (init st p).state = st) ∧
      (init (init st p).state p).state = (init st p).state ∧
      (init st p).trace ++ (init (init st p).state p).trace = (init st p).trace ∧
      (∀ op : Op, st.g_backend_init = true → (applyOp st op).1.g_backend_init = true) ∧
      (∀ ops : List Op, st.g_backend_init = true → (run st ops).1.g_backend_init = true) := by
  refine ⟨?_, ?_, ?_, fun op h => applyOp_keeps_backend_init st op h, ?_⟩
  · intro h; simp [init, h]
  · cases h : st.g_backend_init <;> simp [init, h]
  · cases h : st.g_backend_init <;> simp [init, h]
  · intro ops
    induction ops generalizing st with
    | nil => intro h; exact h
    | cons op ops ih =>
      intro h
      exact ih _ (applyOp_keeps_backend_init st op h)

/-- C10 exercised: `init` on an initialised state does nothing. -/
theorem C10_init_idempotent_witness :
    loadedState.g_backend_init = true ∧
      (init loadedState "/libs").trace = [] ∧ (init loadedState "/libs").state = loadedState :=
  ⟨rfl, (C10_init_idempotent loadedState "/libs").1 rfl⟩

/-! ## The generation loop -/

theorem promptLoop_done (eng : Engine) (ctx : ContextHandle) (i : Nat) (batch : List Token)
    (result : List Char) (h : ¬ i < n_predict) :
    promptLoop eng ctx i batch result = (result, []) := by
  rw [promptLoop, if_neg h]

theorem promptLoop_decode_error (eng : Engine) (ctx : ContextHandle) (i : Nat)
    (batch : List Token) (result : List Char) (h : i < n_predict)
    (hd : (eng.step i).decode_ret ≠ 0) :
    promptLoop eng ctx i batch result =
      (result, [Event.llama_decode ctx batch (eng.step i).decode_ret]) := by
  rw [promptLoop, if_pos h]
  simp only [hd, ne_eq, not_false_eq_true, if_true]

theorem promptLoop_eog (eng : Engine) (ctx : ContextHandle) (i : Nat)
    (batch : List Token) (result : List Char) (h : i < n_predict)
    (hd : (eng.step i).decode_ret = 0) (he : (eng.step i).is_eog = true) :
    promptLoop eng ctx i batch result =
      (result,
        [Event.llama_decode ctx batch (eng.step i).decode_ret,
         Event.llama_sampler_sample ctx (eng.step i).next,
         Event.llama_vocab_is_eog (eng.step i).next (eng.step i).is_eog]) := by
  rw [promptLoop, if_pos h]
  simp only [hd, he, ne_eq, not_true_eq_false, if_false, if_true]

theorem promptLoop_continue (eng : Engine) (ctx : ContextHandle) (i : Nat)
    (batch : List Token) (result : List Char) (h : i < n_predict)
    (hd : (eng.step i).decode_ret = 0) (he : (eng.step i).is_eog = false) :
    promptLoop eng ctx i batch result =
      ((promptLoop eng ctx (i + 1) [(eng.step i).next]
          (result ++ (eng.step i).fragment)).1,
        [Event.llama_decode ctx batch (eng.step i).decode_ret,
         Event.llama_sampler_sample ctx (eng.step i).next,
         Event.llama_vocab_is_eog (eng.step i).next (eng.step i).is_eog,
         Event.llama_token_to_piece (eng.step i).next buf_size (eng.step i).piece_n] ++
        (promptLoop eng ctx (i + 1) [(eng.step i).next]
          (result ++ (eng.step i).fragment)).2) := by
  have hr : (if (eng.step i).piece_n > 0 then
        result ++ (eng.step i).piece_buf.take (eng.step i).piece_n.toNat else result) =
      result ++ (eng.step i).fragment := by
    unfold StepOutcome.fragment
    split <;> simp
  rw [promptLoop, if_pos h]
  simp only [hd, he, ne_eq, not_true_eq_false, if_false, hr, Bool.false_eq_true]

/-- The loop always makes a first `llama_decode` call, and makes it on the
batch it was entered with. -/
theorem promptLoop_first_batch (eng : Engine) (ctx : ContextHandle) (i : Nat)
    (batch : List Token) (result : List Char) (h : i < n_predict) :
    firstDecodeBatch (promptLoop eng ctx i batch result).2 = some batch := by
  by_cases hd : (eng.step i).decode_ret = 0
  · cases he : (eng.step i).is_eog
    · rw [promptLoop_continue eng ctx i batch result h hd he]
      rfl
    · rw [promptLoop_eog eng ctx i batch result h hd he]
      rfl
  · rw [promptLoop_decode_error eng ctx i batch result h hd]
    rfl

/-- Entered at index `i`, the loop makes at most `n_predict - i` calls of each
of `llama_decode`, `llama_sampler_sample` and `llama_token_to_piece`. -/
theorem promptLoop_call_bound (eng : Engine) (ctx : ContextHandle) (n : Nat) :
    ∀ (i : Nat) (batch : List Token) (result : List Char), n_predict - i = n →
      ((promptLoop eng ctx i batch result).2.countP Event.isDecode ≤ n ∧
        (promptLoop eng ctx i batch result).2.countP Event.isSample ≤ n ∧
        (promptLoop eng ctx i batch result).2.countP Event.isDetokenize ≤ n) := by
  induction n with
  | zero =>
    intro i batch result hn
    have h : ¬ i < n_predict := by omega
    rw [promptLoop_done eng ctx i batch result h]
    simp
  | succ n ih =>
    intro i batch result hn
    have h : i < n_predict := by omega
    by_cases hd : (eng.step i).decode_ret = 0
    · cases he : (eng.step i).is_eog
      · rw [promptLoop_continue eng ctx i batch result h hd he]
        obtain ⟨h1, h2, h3⟩ := ih (i + 1) [(eng.step i).next]
          (result ++ (eng.step i).fragment) (by omega)
        simp only [List.countP_append, List.countP_cons, List.countP_nil,
          Event.isDecode, Event.isSample, Event.isDetokenize]
        simp only [if_true, Bool.false_eq_true, if_false]
        omega
      · rw [promptLoop_eog eng ctx i batch result h hd he]
        simp [List.countP_cons, Event.isDecode, Event.isSample, Event.isDetokenize]
    · rw [promptLoop_decode_error eng ctx i batch result h hd]
      simp [List.countP_cons, Event.isDecode, Event.isSample, Event.isDetokenize]

theorem completedFrom_done (eng : Engine) (i : Nat) (h : ¬ i < n_predict) :
    completedFrom eng i = [] := by
  have h0 : n_predict - i = 0 := by omega
  simp [completedFrom, h0]

theorem completedFrom_halt (eng : Engine) (i : Nat) (h : i < n_predict)
    (hh : (eng.step i).halts = true) : completedFrom eng i = [] := by
  have h0 : n_predict - i = (n_predict - (i + 1)) + 1 := by omega
  simp [completedFrom, h0, List.range'_succ, hh]

theorem completedFrom_continue (eng : Engine) (i : Nat) (h : i < n_predict)
    (hh : (eng.step i).halts = false) :
    completedFrom eng i = i :: completedFrom eng (i + 1) := by
  have h0 : n_predict - i = (n_predict - (i + 1)) + 1 := by omega
  simp [completedFrom, h0, List.range'_succ, hh]

/-- The text the loop accumulates: what it was entered with, followed by the
fragments of the iterations before the first halting one, in order. -/
theorem promptLoop_text (eng : Engine) (ctx : ContextHandle) (n : Nat) :
    ∀ (i : Nat) (batch : List Token) (result : List Char), n_predict - i = n →
      (promptLoop eng ctx i batch result).1 = result ++ fragmentsFrom eng i := by
  induction n with
  | zero =>
    intro i batch result hn
    have h : ¬ i < n_predict := by omega
    rw [promptLoop_done eng ctx i batch result h]
    simp [fragmentsFrom, completedFrom_done eng i h]
  | succ n ih =>
    intro i batch result hn
    have h : i < n_predict := by omega
    by_cases hd : (eng.step i).decode_ret = 0
    · cases he : (eng.step i).is_eog
      · rw [promptLoop_continue eng ctx i batch result h hd he]
        have hh : (eng.step i).halts = false := by simp [StepOutcome.halts, hd, he]
        rw [ih (i + 1) _ _ (by omega)]
        simp [fragmentsFrom, completedFrom_continue eng i h hh]
      · rw [promptLoop_eog eng ctx i batch result h hd he]
        have hh : (eng.step i).halts = true := by simp [StepOutcome.halts, he]
        simp [fragmentsFrom, completedFrom_halt eng i h hh]
    · rw [promptLoop_decode_error eng ctx i batch result h hd]
      have hh : (eng.step i).halts = true := by simp [StepOutcome.halts, hd]
      simp [fragmentsFrom, completedFrom_halt eng i h hh]

/-- Number of `llama_decode` calls of the loop: one per completed iteration,
plus one for the halting iteration when there is one. -/
theorem promptLoop_decode_count (eng : Engine) (ctx : ContextHandle) (n : Nat) :
    ∀ (i : Nat) (batch : List Token) (result : List Char), n_predict - i = n →
      (promptLoop eng ctx i batch result).2.countP Event.isDecode =
        min ((completedFrom eng i).length + 1) n := by
  induction n with
  | zero =>
    intro i batch result hn
    have h : ¬ i < n_predict := by omega
    rw [promptLoop_done eng ctx i batch result h]
    simp
  | succ n ih =>
    intro i batch result hn
    have h : i < n_predict := by omega
    by_cases hd : (eng.step i).decode_ret = 0
    · cases he : (eng.step i).is_eog
      · rw [promptLoop_continue eng ctx i batch result h hd he]
        have hh : (eng.step i).halts = false := by simp [StepOutcome.halts, hd, he]
        have h1 := ih (i + 1) [(eng.step i).next] (result ++ (eng.step i).fragment)
          (by omega)
        simp only [List.countP_append, List.countP_cons, List.countP_nil,
          Event.isDecode, completedFrom_continue eng i h hh, List.length_cons]
        simp only [if_true, Bool.false_eq_true, if_false]
        omega
      · rw [promptLoop_eog eng ctx i batch result h hd he]
        have hh : (eng.step i).halts = true := by simp [StepOutcome.halts, he]
        simp [List.countP_cons, Event.isDecode, completedFrom_halt eng i h hh]
    · rw [promptLoop_decode_error eng ctx i batch result h hd]
      have hh : (eng.step i).halts = true := by simp [StepOutcome.halts, hd]
      simp [List.countP_cons, Event.isDecode, completedFrom_halt eng i h hh]

/-! ## C6: the first decode batch is the 500-token prefix -/

theorem firstDecodeBatch_append (tr rest : List Event) (b : List Token)
    (h : firstDecodeBatch tr = some b) : firstDecodeBatch (tr ++ rest) = some b := by
  induction tr with
  | nil => simp [firstDecodeBatch] at h
  | cons e es ih =>
    cases e <;> simp_all [firstDecodeBatch]

/-- C6: in a loaded state, when tokenization succeeds with the token sequence
`t` of length `n >= 1` (the sizing pass answers `-n`, the second pass reports no
error and writes `t`), the first batch `prompt` submits to `llama_decode` is
exactly the first `min n 500` tokens of `t`, in order: `t` itself when
`n <= 500`, the 500-token prefix of `t` when `n > 500`. -/
theorem C6_first_batch_truncated (st : EngineState) (promptJ : String) (eng : Engine)
    (model : ModelHandle) (ctx : ContextHandle) (t : List Token)
    (hm : st.g_model = some model) (hc : st.g_ctx = some ctx)
    (hlen : 1 ≤ t.length) (h32 : t.length < 2147483648)
    (hsize : eng.tokenize_size promptJ = -(t.length : Int))
    (hret : 0 ≤ eng.tokenize_ret promptJ t.length)
    (hout : eng.tokenize_out promptJ t.length = t) :
    firstDecodeBatch (prompt st promptJ eng).trace = some (t.take (min t.length 500)) ∧
      (t.length ≤ 500 → firstDecodeBatch (prompt st promptJ eng).trace = some t) ∧
      (500 < t.length →
        firstDecodeBatch (prompt st promptJ eng).trace = some (t.take 500) ∧
          (t.take 500).length = 500 ∧ t.take 500 ++ t.drop 500 = t) := by
  have hw : negInt32 (eng.tokenize_size promptJ) = some (t.length : Int) := by
    rw [hsize]
    exact negInt32_neg_nat t.length h32
  have hpos : ¬ ((t.length : Int) ≤ 0) := by omega
  have hnf : ¬ (eng.tokenize_ret promptJ t.length < 0) := by omega
  have htok : (t ++ List.replicate t.length (0 : Token)).take t.length = t := by
    simp [List.take_append_eq_append_take]
  have hloop := fun b => promptLoop_first_batch eng ctx 0 b [] (by decide)
  have key : firstDecodeBatch (prompt st promptJ eng).trace =
      some (t.take (if t.length > max_prompt_tokens then max_prompt_tokens else t.length)) := by
    simp only [prompt, hm, hc, hw, hpos, if_false, Int.toNat_ofNat, hout, hnf, htok,
      List.append_assoc, List.cons_append, List.nil_append, firstDecodeBatch]
    by_cases hlong : t.length > max_prompt_tokens
    · simp only [hlong, decide_True, if_true, List.cons_append, List.nil_append,
        firstDecodeBatch]
      exact firstDecodeBatch_append _ _ _ (hloop _)
    · simp only [hlong, decide_False, if_false, List.nil_append, Bool.false_eq_true]
      exact firstDecodeBatch_append _ _ _ (hloop _)
  refine ⟨?_, ?_, ?_⟩
  · rw [key]
    unfold max_prompt_tokens
    by_cases h : t.length > 500
    · rw [if_pos h, Nat.min_eq_right (by omega)]
    · rw [if_neg h, Nat.min_eq_left (by omega)]
  · intro h
    rw [key]
    unfold max_prompt_tokens
    rw [if_neg (by omega), List.take_length]
  · intro h
    rw [key]
    unfold max_prompt_tokens
    rw [if_pos (by omega)]
    refine ⟨rfl, ?_, List.take_append_drop 500 t⟩
    rw [List.length_take]
    omega

/-- C6 exercised on a prompt of 501 tokens `0, 1, ..., 500`: the first batch is
the 500 tokens `0, ..., 499`. -/
theorem C6_first_batch_truncated_witness :
    loadedState.g_model = some 10 ∧ loadedState.g_ctx = some 20 ∧
      ((List.range 501).map Int.ofNat).length = 501 ∧
      firstDecodeBatch (prompt loadedState "q" longPromptEngine).trace =
        some (((List.range 501).map Int.ofNat).take 500) :=
  ⟨rfl, rfl, by simp,
    ((C6_first_batch_truncated loadedState "q" longPromptEngine 10 20
      ((List.range 501).map Int.ofNat) rfl rfl (by simp) (by simp)
      (by simp [longPromptEngine]) (by simp [longPromptEngine])
      (by simp [longPromptEngine])).2.2 (by simp)).1⟩

/-! ## C7: at most 256 decode and sample calls -/

/-- Shape of `prompt` on the path that reaches the generation loop. -/
theorem prompt_generates (st : EngineState) (promptJ : String) (eng : Engine)
    (model : ModelHandle) (ctx : ContextHandle)
    (n : Int) (hm : st.g_model = some model) (hc : st.g_ctx = some ctx)
    (hneg : negInt32 (eng.tokenize_size promptJ) = some n) (hn : ¬ n ≤ 0)
    (hf : ¬ eng.tokenize_ret promptJ n.toNat < 0) :
    ∃ (batch : List Token) (logs : List Event),
      (∀ e ∈ logs, e.isEngineCall = false) ∧
      (prompt st promptJ eng).ret = NewStringUTF (promptLoop eng ctx 0 batch []).1 ∧
      (prompt st promptJ eng).trace =
        [Event.llama_model_get_vocab model,
         Event.llama_tokenize promptJ 0 (eng.tokenize_size promptJ),
         Event.llama_tokenize promptJ n.toNat (eng.tokenize_ret promptJ n.toNat),
         Event.llama_sampler_chain_default_params,
         Event.llama_sampler_chain_init,
         Event.llama_sampler_init_greedy,
         Event.llama_sampler_chain_add] ++ logs ++
        (promptLoop eng ctx 0 batch []).2 ++ [Event.llama_sampler_free] := by
  simp only [prompt, hm, hc, hneg, hn, hf, if_false]
  refine ⟨?batch, ?logs, ?a, ?b, ?c⟩
  case b => exact rfl
  case c => exact rfl
  case a =>
    intro e he
    split at he
    · simp at he
      subst he
      rfl
    · simp at he

theorem NewStringUTF_of_no_nul (bytes : List Char) (h : Char.ofNat 0 ∉ bytes) :
    NewStringUTF bytes = String.mk bytes := by
  unfold NewStringUTF
  congr 1
  rw [List.takeWhile_eq_self_iff]
  intro c hc
  simp only [bne_iff_ne, ne_eq]
  intro h0
  exact h (h0 ▸ hc)

/-- On the path that reaches the loop: the `std::string` accumulated by the loop
is the in-order concatenation of the fragments of the iterations before the
first halting one; `prompt` returns it through `NewStringUTF`, hence unchanged
when it contains no NUL; and the loop makes one `llama_decode` call per
completed iteration plus one for the halting iteration, none after it. -/
theorem prompt_text (st : EngineState) (promptJ : String) (eng : Engine)
    (model : ModelHandle) (ctx : ContextHandle)
    (n : Int) (hm : st.g_model = some model) (hc : st.g_ctx = some ctx)
    (hneg : negInt32 (eng.tokenize_size promptJ) = some n) (hn : ¬ n ≤ 0)
    (hf : ¬ eng.tokenize_ret promptJ n.toNat < 0) :
    (prompt st promptJ eng).ret = NewStringUTF (fragmentsFrom eng 0) ∧
      (Char.ofNat 0 ∉ fragmentsFrom eng 0 →
        (prompt st promptJ eng).ret = String.mk (fragmentsFrom eng 0)) ∧
      (prompt st promptJ eng).trace.countP Event.isDecode =
        min ((completedFrom eng 0).length + 1) 256 := by
  obtain ⟨batch, logs, hlogs, hret, htr⟩ :=
    prompt_generates st promptJ eng model ctx n hm hc hneg hn hf
  have htext : (promptLoop eng ctx 0 batch []).1 = fragmentsFrom eng 0 := by
    rw [promptLoop_text eng ctx 256 0 batch [] rfl]
    simp
  have hl : logs.countP Event.isDecode = 0 := by
    rw [List.countP_eq_zero]
    intro e he hd
    have := hlogs e he
    cases e <;> simp_all [Event.isDecode, Event.isEngineCall]
  refine ⟨?_, ?_, ?_⟩
  · rw [hret, htext]
  · intro h0
    rw [hret, htext, NewStringUTF_of_no_nul _ h0]
  · rw [htr]
    simp only [List.countP_append, List.countP_cons, List.countP_nil, Event.isDecode, hl,
      promptLoop_decode_count eng ctx 256 0 batch [] rfl]
    simp

theorem completedFrom_length_le (eng : Engine) (i : Nat) :
    (completedFrom eng i).length ≤ n_predict - i := by
  unfold completedFrom
  exact (List.takeWhile_sublist _).length_le.trans (by simp)

/-- C7: whatever the state, the prompt and the behaviour of the engine
(whatever `llama_decode` returns, whatever the sampler selects, also when it
never selects an end-of-generation token), `prompt` returns having made at most
256 `llama_decode` calls, at most 256 `llama_sampler_sample` calls and at most
256 `llama_token_to_piece` calls; and what it returns is one of its three fixed
messages or is made from the fragments of at most 256 sampled tokens.  (When
the sizing pass returns `INT32_MIN` the execution is marked undefined before
any of these calls; the counts are then those of the calls made up to there.) -/
theorem C7_generation_bound (st : EngineState) (promptJ : String) (eng : Engine) :
    (prompt st promptJ eng).trace.countP Event.isDecode ≤ 256 ∧
      (prompt st promptJ eng).trace.countP Event.isSample ≤ 256 ∧
      (prompt st promptJ eng).trace.countP Event.isDetokenize ≤ 256 ∧
      ((prompt st promptJ eng).ret = "[Model not loaded. Call loadModel() first.]" ∨
        (prompt st promptJ eng).ret = "[Empty or invalid prompt]" ∨
        (prompt st promptJ eng).ret = "[Tokenize failed]" ∨
        ∃ iterations : List Nat, iterations.length ≤ 256 ∧
          (prompt st promptJ eng).ret =
            NewStringUTF ((iterations.map (fun j => (eng.step j).fragment)).flatten)) := by
  have hs1 : NewStringUTF "[Model not loaded. Call loadModel() first.]".toList =
      "[Model not loaded. Call loadModel() first.]" := by decide
  have hs2 : NewStringUTF "[Empty or invalid prompt]".toList =
      "[Empty or invalid prompt]" := by decide
  have hs3 : NewStringUTF "[Tokenize failed]".toList = "[Tokenize failed]" := by decide
  cases hm : st.g_model with
  | none =>
    simp only [prompt, hm]
    exact ⟨by simp, by simp, by simp, Or.inl hs1⟩
  | some model =>
    cases hc : st.g_ctx with
    | none =>
      simp only [prompt, hm, hc]
      exact ⟨by simp, by simp, by simp, Or.inl hs1⟩
    | some ctx =>
      cases hneg : negInt32 (eng.tokenize_size promptJ) with
      | none =>
        simp only [prompt, hm, hc, hneg]
        exact ⟨by simp [Event.isDecode], by simp [Event.isSample],
          by simp [Event.isDetokenize],
          Or.inr (Or.inr (Or.inr ⟨[], Nat.zero_le _, rfl⟩))⟩
      | some n =>
        by_cases hn : n ≤ 0
        · simp only [prompt, hm, hc, hneg, hn, if_true]
          exact ⟨by simp [Event.isDecode], by simp [Event.isSample],
            by simp [Event.isDetokenize], Or.inr (Or.inl hs2)⟩
        · by_cases hf : eng.tokenize_ret promptJ n.toNat < 0
          · simp only [prompt, hm, hc, hneg, hn, hf, if_true, if_false]
            exact ⟨by simp [Event.isDecode], by simp [Event.isSample],
              by simp [Event.isDetokenize], Or.inr (Or.inr (Or.inl hs3))⟩
          · obtain ⟨batch, logs, hlogs, -, htr⟩ :=
              prompt_generates st promptJ eng model ctx n hm hc hneg hn hf
            obtain ⟨h1, h2, h3⟩ := promptLoop_call_bound eng ctx 256 0 batch [] rfl
            have hl : ∀ q : Event → Bool, (∀ e, q e = true → e.isEngineCall = true) →
                logs.countP q = 0 := by
              intro q hq
              rw [List.countP_eq_zero]
              intro e he hqe
              have := hq e hqe
              rw [hlogs e he] at this
              cases this
            have hl1 := hl Event.isDecode
              (by intro e; cases e <;> simp [Event.isDecode, Event.isEngineCall])
            have hl2 := hl Event.isSample
              (by intro e; cases e <;> simp [Event.isSample, Event.isEngineCall])
            have hl3 := hl Event.isDetokenize
              (by intro e; cases e <;> simp [Event.isDetokenize, Event.isEngineCall])
            refine ⟨?_, ?_, ?_, Or.inr (Or.inr (Or.inr ⟨completedFrom eng 0,
              completedFrom_length_le eng 0,
              (prompt_text st promptJ eng model ctx n hm hc hneg hn hf).1⟩))⟩
            all_goals
              rw [htr]
              simp only [List.countP_append, List.countP_cons, List.countP_nil,
                Event.isDecode, Event.isSample, Event.isDetokenize, hl1, hl2, hl3]
              simp only [Bool.false_eq_true, if_false]
              omega

/-! ## C4: the resource ledger -/

theorem Ledger.replay_append (tr1 tr2 : List Event) :
    ∀ l : Ledger, l.replay (tr1 ++ tr2) = (l.replay tr1).bind (fun l1 => l1.replay tr2) := by
  induction tr1 with
  | nil => intro l; rfl
  | cons e es ih =>
    intro l
    simp only [List.cons_append, Ledger.replay]
    cases l.apply e with
    | none => rfl
    | some l1 => exact ih l1

theorem Ledger.safeAlong_nil (l : Ledger) : l.SafeAlong [] ↔ l.AtMostOnePair := by
  constructor
  · intro h
    obtain ⟨l1, h1, h2⟩ := h 0
    simp only [List.take_nil, Ledger.replay, Option.some.injEq] at h1
    rw [h1]
    exact h2
  · intro h k
    exact ⟨l, by simp [Ledger.replay], h⟩

theorem Ledger.safeAlong_cons (l : Ledger) (e : Event) (es : List Event) :
    l.SafeAlong (e :: es) ↔
      l.AtMostOnePair ∧ ∃ l1, l.apply e = some l1 ∧ l1.SafeAlong es := by
  constructor
  · intro h
    refine ⟨?_, ?_⟩
    · obtain ⟨l1, h1, h2⟩ := h 0
      simp only [List.take_zero, Ledger.replay, Option.some.injEq] at h1
      rw [h1]
      exact h2
    · cases ha : l.apply e with
      | none =>
        obtain ⟨l1, h1, -⟩ := h 1
        simp [Ledger.replay, ha] at h1
      | some l1 =>
        refine ⟨l1, rfl, ?_⟩
        intro k
        obtain ⟨l2, h1, h2⟩ := h (k + 1)
        simp only [List.take_succ_cons, Ledger.replay, ha] at h1
        exact ⟨l2, h1, h2⟩
  · rintro ⟨h0, l1, ha, hs⟩ k
    cases k with
    | zero => exact ⟨l, by simp [Ledger.replay], h0⟩
    | succ k =>
      obtain ⟨l2, h1, h2⟩ := hs k
      exact ⟨l2, by simp only [List.take_succ_cons, Ledger.replay, ha, h1], h2⟩

theorem Ledger.safeAlong_append (l l1 : Ledger) (tr1 tr2 : List Event)
    (h1 : l.SafeAlong tr1) (hr : l.replay tr1 = some l1) (h2 : l1.SafeAlong tr2) :
    l.SafeAlong (tr1 ++ tr2) := by
  intro k
  rw [List.take_append_eq_append_take, Ledger.replay_append]
  by_cases hk : k ≤ tr1.length
  · obtain ⟨l2, h3, h4⟩ := h1 k
    have h0 : k - tr1.length = 0 := by omega
    refine ⟨l2, ?_, h4⟩
    rw [h3, h0]
    simp [Ledger.replay]
  · obtain ⟨l2, h3, h4⟩ := h2 (k - tr1.length)
    refine ⟨l2, ?_, h4⟩
    rw [List.take_of_length_le (by omega), hr]
    exact h3

theorem Ledger.apply_neutral (l : Ledger) (e : Event) (h : e.isHandleCall = false) :
    l.apply e = some l := by
  cases e <;> first | rfl | simp [Event.isHandleCall] at h

theorem Ledger.replay_neutral (l : Ledger) (tr : List Event)
    (h : ∀ e ∈ tr, e.isHandleCall = false) : l.replay tr = some l := by
  induction tr with
  | nil => rfl
  | cons e es ih =>
    simp only [Ledger.replay, Ledger.apply_neutral l e (h e (List.mem_cons_self e es))]
    exact ih (fun e1 he1 => h e1 (List.mem_cons_of_mem e he1))

theorem Ledger.safeAlong_neutral (l : Ledger) (tr : List Event) (hl : l.AtMostOnePair)
    (h : ∀ e ∈ tr, e.isHandleCall = false) : l.SafeAlong tr := by
  intro k
  refine ⟨l, Ledger.replay_neutral l _ ?_, hl⟩
  intro e he
  exact h e (List.mem_of_mem_take he)

theorem Ledger.ofState_atMostOnePair (st : EngineState) :
    (Ledger.ofState st).AtMostOnePair := by
  unfold Ledger.AtMostOnePair Ledger.ofState
  cases st.g_model <;> cases st.g_ctx <;> simp

theorem promptLoop_neutral (eng : Engine) (ctx : ContextHandle) (n : Nat) :
    ∀ (i : Nat) (batch : List Token) (result : List Char), n_predict - i = n →
      ∀ e ∈ (promptLoop eng ctx i batch result).2, e.isHandleCall = false := by
  induction n with
  | zero =>
    intro i batch result hn
    have h : ¬ i < n_predict := by omega
    rw [promptLoop_done eng ctx i batch result h]
    simp
  | succ n ih =>
    intro i batch result hn
    have h : i < n_predict := by omega
    by_cases hd : (eng.step i).decode_ret = 0
    · cases he : (eng.step i).is_eog
      · rw [promptLoop_continue eng ctx i batch result h hd he]
        intro e hmem
        simp only [List.cons_append, List.nil_append, List.mem_cons] at hmem
        rcases hmem with rfl | rfl | rfl | rfl | hmem
        · rfl
        · rfl
        · rfl
        · rfl
        · exact ih (i + 1) _ _ (by omega) e hmem
      · rw [promptLoop_eog eng ctx i batch result h hd he]
        intro e hmem
        simp only [List.mem_cons, List.mem_singleton, List.not_mem_nil, or_false] at hmem
        rcases hmem with rfl | rfl | rfl <;> rfl
    · rw [promptLoop_decode_error eng ctx i batch result h hd]
      intro e hmem
      simp only [List.mem_singleton] at hmem
      subst hmem
      rfl

theorem prompt_neutral (st : EngineState) (promptJ : String) (eng : Engine) :
    ∀ e ∈ (prompt st promptJ eng).trace, e.isHandleCall = false := by
  cases hm : st.g_model with
  | none => simp [prompt, hm]
  | some model =>
    cases hc : st.g_ctx with
    | none => simp [prompt, hm, hc]
    | some ctx =>
      cases hneg : negInt32 (eng.tokenize_size promptJ) with
      | none => simp [prompt, hm, hc, hneg, Event.isHandleCall]
      | some n =>
        by_cases hn : n ≤ 0
        · simp [prompt, hm, hc, hneg, hn, Event.isHandleCall]
        · by_cases hf : eng.tokenize_ret promptJ n.toNat < 0
          · simp [prompt, hm, hc, hneg, hn, hf, Event.isHandleCall]
          · obtain ⟨batch, logs, hlogs, -, htr⟩ :=
              prompt_generates st promptJ eng model ctx n hm hc hneg hn hf
            rw [htr]
            intro e hmem
            simp only [List.cons_append, List.nil_append, List.append_assoc, List.mem_cons,
              List.mem_append, List.mem_singleton, List.not_mem_nil, or_false] at hmem
            rcases hmem with rfl | rfl | rfl | rfl | rfl | rfl | rfl | hmem | hmem | rfl
            · rfl
            · rfl
            · rfl
            · rfl
            · rfl
            · rfl
            · rfl
            · have := hlogs e hmem
              cases e <;> first | rfl | simp [Event.isEngineCall] at this
            · exact promptLoop_neutral eng ctx 256 0 batch [] rfl e hmem
            · rfl

theorem init_ledger (st : EngineState) (p : String) :
    (Ledger.ofState st).SafeAlong (init st p).trace ∧
      (Ledger.ofState st).replay (init st p).trace = some (Ledger.ofState (init st p).state) := by
  have hn : ∀ e ∈ (init st p).trace, e.isHandleCall = false := by
    unfold init
    split <;> simp [Event.isHandleCall]
  refine ⟨Ledger.safeAlong_neutral _ _ (Ledger.ofState_atMostOnePair st) hn, ?_⟩
  rw [Ledger.replay_neutral _ _ hn]
  obtain ⟨h1, h2⟩ := init_state_handles st p
  simp [Ledger.ofState, h1, h2]

theorem prompt_ledger (st : EngineState) (p : String) (eng : Engine) :
    (Ledger.ofState st).SafeAlong (prompt st p eng).trace ∧
      (Ledger.ofState st).replay (prompt st p eng).trace =
        some (Ledger.ofState (prompt st p eng).state) := by
  have hn := prompt_neutral st p eng
  refine ⟨Ledger.safeAlong_neutral _ _ (Ledger.ofState_atMostOnePair st) hn, ?_⟩
  rw [Ledger.replay_neutral _ _ hn, prompt_state]

theorem unload_ledger (st : EngineState) :
    (Ledger.ofState st).SafeAlong (unload st).trace ∧
      (Ledger.ofState st).replay (unload st).trace =
        some (Ledger.ofState (unload st).state) := by
  obtain ⟨b, m, c⟩ := st
  cases m <;> cases c <;>
    simp [unload, releasePair, Ledger.ofState, Ledger.safeAlong_cons, Ledger.safeAlong_nil,
      Ledger.AtMostOnePair, Ledger.apply, Ledger.replay]

theorem loadModel_ledger (st : EngineState) (p : String) (eng : Engine) :
    (Ledger.ofState st).SafeAlong (loadModel st p eng).trace ∧
      (Ledger.ofState st).replay (loadModel st p eng).trace =
        some (Ledger.ofState (loadModel st p eng).state) := by
  obtain ⟨b, m, c⟩ := st
  cases b
  · cases m <;> cases c <;>
      simp [loadModel, Ledger.ofState, Ledger.safeAlong_cons, Ledger.safeAlong_nil,
        Ledger.AtMostOnePair, Ledger.apply, Ledger.replay]
  · cases hl : eng.llama_model_load_from_file p with
    | none =>
      cases m <;> cases c <;>
        simp [loadModel, releasePair, hl, Ledger.ofState, Ledger.safeAlong_cons,
          Ledger.safeAlong_nil, Ledger.AtMostOnePair, Ledger.apply, Ledger.replay]
    | some m1 =>
      cases hc : eng.llama_init_from_model m1 with
      | none =>
        cases m <;> cases c <;>
          simp [loadModel, releasePair, hl, hc, Ledger.ofState, Ledger.safeAlong_cons,
            Ledger.safeAlong_nil, Ledger.AtMostOnePair, Ledger.apply, Ledger.replay]
      | some c1 =>
        cases m <;> cases c <;>
          simp [loadModel, releasePair, hl, hc, Ledger.ofState, Ledger.safeAlong_cons,
            Ledger.safeAlong_nil, Ledger.AtMostOnePair, Ledger.apply, Ledger.replay]

theorem applyOp_ledger (st : EngineState) (op : Op) :
    (Ledger.ofState st).SafeAlong (applyOp st op).2 ∧
      (Ledger.ofState st).replay (applyOp st op).2 =
        some (Ledger.ofState (applyOp st op).1) := by
  cases op with
  | init p => exact init_ledger st p
  | loadModel p eng => exact loadModel_ledger st p eng
  | prompt p eng => exact prompt_ledger st p eng
  | unload => exact unload_ledger st

theorem run_ledger (ops : List Op) :
    ∀ st : EngineState,
      (Ledger.ofState st).SafeAlong (run st ops).2 ∧
        (Ledger.ofState st).replay (run st ops).2 = some (Ledger.ofState (run st ops).1) := by
  induction ops with
  | nil =>
    intro st
    exact ⟨(Ledger.safeAlong_nil _).2 (Ledger.ofState_atMostOnePair st), rfl⟩
  | cons op ops ih =>
    intro st
    obtain ⟨h1, h2⟩ := applyOp_ledger st op
    obtain ⟨h3, h4⟩ := ih (applyOp st op).1
    refine ⟨Ledger.safeAlong_append _ _ _ _ h1 h2 h3, ?_⟩
    simp only [run]
    rw [Ledger.replay_append, h2]
    exact h4

theorem run_append (ops1 ops2 : List Op) :
    ∀ st : EngineState,
      run st (ops1 ++ ops2) =
        ((run (run st ops1).1 ops2).1, (run st ops1).2 ++ (run (run st ops1).1 ops2).2) := by
  induction ops1 with
  | nil => intro st; simp [run]
  | cons op ops ih =>
    intro st
    have h := ih (applyOp st op).1
    rw [List.cons_append]
    simp only [run, h, List.append_assoc]

theorem loadModel_ret_true (st : EngineState) (p : String) (eng : Engine)
    (h : (loadModel st p eng).ret = true) :
    ∃ m c, eng.llama_model_load_from_file p = some m ∧
      eng.llama_init_from_model m = some c ∧
      (loadModel st p eng).state.g_model = some m ∧
      (loadModel st p eng).state.g_ctx = some c := by
  cases hb : st.g_backend_init with
  | false => simp [loadModel, hb] at h
  | true =>
    cases hl : eng.llama_model_load_from_file p with
    | none => simp [loadModel, hb, hl, releasePair] at h
    | some m =>
      cases hc : eng.llama_init_from_model m with
      | none => simp [loadModel, hb, hl, hc, releasePair] at h
      | some c =>
        exact ⟨m, c, rfl, hc, by simp [loadModel, hb, hl, hc, releasePair]⟩

/-- C4: replay the acquisitions and releases of any finite sequence of `init`,
`loadModel`, `prompt` and `unload` calls from the initial state, under every
engine outcome, on a ledger that starts empty.  (1, 2) After every prefix of
the trace the replay is defined, i.e. every release so far was of a live
handle (none is released twice), and at most one model handle and at most one
context handle are live, so at most two handles in all.  (3) After the whole
sequence the live handles are exactly the ones stored in the globals; so when
`loadModel(A)` is followed by a `loadModel(B)` that returns true, the live
handles are exactly the pair obtained for B.  The order behind (1): on a held
pair, `loadModel` calls `llama_free`, then `llama_model_free`, and only then
`llama_model_load_from_file`. -/
theorem C4_ledger (ops : List Op) :
    (∀ k : Nat, ∃ l : Ledger,
        Ledger.empty.replay ((run EngineState.initial ops).2.take k) = some l ∧
          l.models.length ≤ 1 ∧ l.contexts.length ≤ 1 ∧ l.liveCount ≤ 2) ∧
      Ledger.empty.replay (run EngineState.initial ops).2 =
        some { models := (run EngineState.initial ops).1.g_model.toList,
               contexts := (run EngineState.initial ops).1.g_ctx.toList } ∧
      (∀ (pathA pathB : String) (engA engB : Engine),
        (loadModel (run EngineState.initial (ops ++ [Op.loadModel pathA engA])).1
            pathB engB).ret = true →
          ∃ m c, engB.llama_model_load_from_file pathB = some m ∧
            engB.llama_init_from_model m = some c ∧
            Ledger.empty.replay
                (run EngineState.initial
                  (ops ++ [Op.loadModel pathA engA, Op.loadModel pathB engB])).2 =
              some { models := [m], contexts := [c] }) ∧
      (∀ (m : ModelHandle) (c : ContextHandle) (path : String) (eng : Engine),
        ∃ rest : List Event,
          (loadModel { g_backend_init := true, g_model := some m, g_ctx := some c }
              path eng).trace =
            Event.llama_free c :: Event.llama_model_free m ::
              Event.llama_model_default_params ::
              Event.llama_model_load_from_file path (eng.llama_model_load_from_file path) ::
              rest) := by
  have hempty : Ledger.empty = Ledger.ofState EngineState.initial := rfl
  refine ⟨?_, ?_, ?_, ?_⟩
  · intro k
    obtain ⟨l, h1, h2⟩ := (run_ledger ops EngineState.initial).1 k
    refine ⟨l, ?_, h2.1, h2.2, ?_⟩
    · rw [hempty]; exact h1
    · have := h2.1
      have := h2.2
      unfold Ledger.liveCount
      omega
  · rw [hempty, (run_ledger ops EngineState.initial).2]
    rfl
  · intro pathA pathB engA engB hret
    obtain ⟨m, c, hm, hc, hsm, hsc⟩ := loadModel_ret_true _ pathB engB hret
    refine ⟨m, c, hm, hc, ?_⟩
    rw [hempty, (run_ledger _ EngineState.initial).2]
    have happ : ops ++ [Op.loadModel pathA engA, Op.loadModel pathB engB] =
        (ops ++ [Op.loadModel pathA engA]) ++ [Op.loadModel pathB engB] := by simp
    rw [happ, run_append]
    simp only [run, applyOp, Ledger.ofState, hsm, hsc, Option.toList]
  · intro m c path eng
    cases hl : eng.llama_model_load_from_file path with
    | none =>
      refine ⟨[Event.log .ANDROID_LOG_ERROR "Failed to load model"], ?_⟩
      simp [loadModel, releasePair, hl]
    | some m1 =>
      cases hc : eng.llama_init_from_model m1 with
      | none =>
        refine ⟨[Event.llama_context_default_params,
          Event.llama_init_from_model m1 n_ctx n_batch none, Event.llama_model_free m1,
          Event.log .ANDROID_LOG_ERROR "Failed to init context"], ?_⟩
        simp [loadModel, releasePair, hl, hc]
      | some c1 =>
        refine ⟨[Event.llama_context_default_params,
          Event.llama_init_from_model m1 n_ctx n_batch (some c1),
          Event.log .ANDROID_LOG_INFO "Model loaded"], ?_⟩
        simp [loadModel, releasePair, hl, hc]

/-- C4 exercised: `init`, `loadModel(A)`, then a successful `loadModel(B)`
leaves exactly the pair obtained for B live. -/
theorem C4_ledger_witness :
    (loadModel (run EngineState.initial
          ([Op.init "/libs"] ++ [Op.loadModel "/models/a.gguf" sampleEngine])).1
        "/models/b.gguf" sampleEngine).ret = true ∧
      ∃ m c, sampleEngine.llama_model_load_from_file "/models/b.gguf" = some m ∧
        sampleEngine.llama_init_from_model m = some c ∧
        Ledger.empty.replay
            (run EngineState.initial
              ([Op.init "/libs"] ++
                [Op.loadModel "/models/a.gguf" sampleEngine,
                 Op.loadModel "/models/b.gguf" sampleEngine])).2 =
          some { models := [m], contexts := [c] } :=
  ⟨rfl,
    (C4_ledger [Op.init "/libs"]).2.2.1 "/models/a.gguf" "/models/b.gguf"
      sampleEngine sampleEngine rfl⟩

/-! ## C8: what `prompt` returns after generating -/

/-- C8 (evaluation at the failing input): in the loaded state, with an engine
whose three first iterations sample tokens with the pieces "a", a single NUL
byte and "bc", every one with a positive length, and whose fourth
`llama_decode` fails, the iterations before the first halting one are
`0, 1, 2` and their fragments concatenate to the four chars `a`, NUL, `b`,
`c`; the calls `prompt` makes are the ones listed, ending with the failing
fourth `llama_decode`; and `prompt` returns the one-char string "a", which is
not that concatenation. -/
theorem C8_nul_piece_cuts_returned_text :
    completedFrom sampleEngine 0 = [0, 1, 2] ∧
      fragmentsFrom sampleEngine 0 = ['a', Char.ofNat 0, 'b', 'c'] ∧
      (prompt loadedState "q" sampleEngine).trace =
        [Event.llama_model_get_vocab 10,
         Event.llama_tokenize "q" 0 (-3),
         Event.llama_tokenize "q" 3 3,
         Event.llama_sampler_chain_default_params,
         Event.llama_sampler_chain_init,
         Event.llama_sampler_init_greedy,
         Event.llama_sampler_chain_add,
         Event.llama_decode 20 [1, 2, 3] 0,
         Event.llama_sampler_sample 20 5,
         Event.llama_vocab_is_eog 5 false,
         Event.llama_token_to_piece 5 128 1,
         Event.llama_decode 20 [5] 0,
         Event.llama_sampler_sample 20 3,
         Event.llama_vocab_is_eog 3 false,
         Event.llama_token_to_piece 3 128 1,
         Event.llama_decode 20 [3] 0,
         Event.llama_sampler_sample 20 6,
         Event.llama_vocab_is_eog 6 false,
         Event.llama_token_to_piece 6 128 2,
         Event.llama_decode 20 [6] 1,
         Event.llama_sampler_free] ∧
      (prompt loadedState "q" sampleEngine).ret = "a" ∧
      (prompt loadedState "q" sampleEngine).ret ≠ String.mk (fragmentsFrom sampleEngine 0) := by
  have hc : completedFrom sampleEngine 0 = [0, 1, 2] := by
    rw [completedFrom_continue sampleEngine 0 (by decide) (by decide),
      completedFrom_continue sampleEngine 1 (by decide) (by decide),
      completedFrom_continue sampleEngine 2 (by decide) (by decide),
      completedFrom_halt sampleEngine 3 (by decide) (by decide)]
  have hfr : fragmentsFrom sampleEngine 0 = ['a', Char.ofNat 0, 'b', 'c'] := by
    unfold fragmentsFrom
    rw [hc]
    decide
  have hret : (prompt loadedState "q" sampleEngine).ret = "a" := by
    obtain ⟨h1, -, -⟩ := prompt_text loadedState "q" sampleEngine 10 20 3 rfl rfl
      (by decide) (by decide) (by decide)
    rw [h1, hfr]
    decide
  refine ⟨hc, hfr, ?_, hret, ?_⟩
  · simp [prompt, promptLoop, loadedState, sampleEngine, negInt32, n_predict,
      max_prompt_tokens, buf_size]
  · rw [hret, hfr]
    decide

end LlamaJNI
